import Mathlib

/-!
Verification of the data-preparation scripts of the
confusion-state-detection-data-acquisition repository.

The scripts manipulate JSON data (`body_tracking.json`, `metadata.json`) and
CSV highlight tables.  We model JSON values with the inductive type `Value`
below; Python dictionaries become insertion-ordered association lists
(`List (key × Value)`) with Python assignment semantics (`dset`: overwrite in
place if the key exists, append otherwise) and `dict.get` lookup (`dget`).
Python floats are modelled as rationals; Python ints live inside the same
numeric constructor (Python's `==` identifies `1` and `1.0`, as `ℚ` does).
Frame-number JSON object keys are modelled as integers (`int(frame_number_str)`
is their parse).  `int(x)` on a number is truncation toward zero (`pyInt`).

Module naming: namespace `UpdateMetadata` embeds `src/svo_export/update_metadata.py`,
`LabelScript` embeds `src/Data Preparation/label.py`, `PrepCap` embeds
`src/Data Preparation/data_preparation.py`, `PrepSnake` embeds
`src/data_preparation/data_preparation.py`, and `ExportCsv` embeds
`src/Data Preparation/export_csv.py`.
-/

namespace ConfusionData

/-- A JSON value as produced by `json.load`.  Numbers (Python int and float)
are modelled as rationals. -/
inductive Value : Type where
  | null : Value
  | bool : Bool → Value
  | num : ℚ → Value
  | str : String → Value
  | list : List Value → Value
  | dict : List (String × Value) → Value

/-- `isinstance(v, list)`. -/
def Value.isList : Value → Bool
  | .list _ => true
  | _ => false

/-- Lookup in an association list modelling a Python dict: first (unique)
matching key.  `d.get(k)` returns `None` when absent, which we render as
`none`. -/
def dget {α β : Type} [DecidableEq α] : List (α × β) → α → Option β
  | [], _ => none
  | (k, v) :: rest, q => if q = k then some v else dget rest q

/-- Python dict assignment `d[k] = v`: overwrite in place when the key is
present (keeping its position), append otherwise. -/
def dset {α β : Type} [DecidableEq α] : List (α × β) → α → β → List (α × β)
  | [], k, v => [(k, v)]
  | (k0, v0) :: rest, k, v =>
      if k0 = k then (k0, v) :: rest else (k0, v0) :: dset rest k v

/-- A sequence of Python dict assignments, in order. -/
def foldSet {α β : Type} [DecidableEq α] (d : List (α × β)) (ps : List (α × β)) :
    List (α × β) :=
  ps.foldl (fun acc kv => dset acc kv.1 kv.2) d

/-- `dict(pairs)` / `OrderedDict(pairs)`: build a dict from a pair list; a
repeated key keeps its first position but takes its last value. -/
def dictOfPairs {α β : Type} [DecidableEq α] (ps : List (α × β)) : List (α × β) :=
  foldSet [] ps

/-- The last value assigned to `q` by the assignment sequence `ps`, if any. -/
def assignGet {α β : Type} [DecidableEq α] : List (α × β) → α → Option β
  | [], _ => none
  | p :: rest, q =>
      match assignGet rest q with
      | some v => some v
      | none => if p.1 = q then some p.2 else none

/-- Python `int(x)` on a number: truncation toward zero. -/
def pyInt (q : ℚ) : ℤ :=
  Int.tdiv q.num q.den

namespace UpdateMetadata

/-- `seconds_to_frames` from `src/svo_export/update_metadata.py`: start from an
empty list and, for each second, append `int(sec * average_frame_rate)`. -/
def seconds_to_frames (seconds : List ℚ) (average_frame_rate : ℚ) : List ℤ :=
  seconds.foldl (fun frames sec => frames ++ [pyInt (sec * average_frame_rate)]) []

end UpdateMetadata

namespace PrepCap

/-- `seconds_to_frames` from `src/Data Preparation/data_preparation.py`:
`[int(sec * average_frame_rate) for sec in seconds]`. -/
def seconds_to_frames (seconds : List ℚ) (average_frame_rate : ℚ) : List ℤ :=
  seconds.map (fun sec => pyInt (sec * average_frame_rate))

end PrepCap

namespace LabelScript

/-- `extract_intervals` from `src/Data Preparation/label.py`: for
`i = 0, 2, 4, ...` add `range(frames[i], frames[i+1] + 1)` to the set.
The access `frames[i+1]` raises `IndexError` on an odd-length list, rendered
as `none`. -/
def extract_intervals : List ℤ → Option (Finset ℤ)
  | [] => some ∅
  | [_] => none
  | a :: b :: rest => (extract_intervals rest).map (fun s => Finset.Icc a b ∪ s)

end LabelScript

/-- A body record: the innermost JSON object holding the tracked fields. -/
abbrev Body := List (String × Value)

/-- A frame's data: inner body key (person id string) to body record. -/
abbrev FrameData := List (String × Body)

/-- `body_tracking.json` in its dict form: frame number (the parsed object
key) to frame data. -/
abbrev BodyTracking := List (ℤ × FrameData)

namespace LabelScript

/-- `label_confused` from `src/Data Preparation/label.py`: for every frame and
every inner body, rebuild the body as
`OrderedDict([('confused', confused_value)] + list(inner_data.items()))`.
A repeated key in the pair list keeps its first position but takes its last
value (Python dict construction). -/
def label_confused (body_tracking : BodyTracking) (intervals : Finset ℤ) :
    BodyTracking :=
  body_tracking.map (fun f =>
    (f.1, f.2.map (fun ib =>
      (ib.1, dictOfPairs (("confused", Value.bool (decide (f.1 ∈ intervals))) :: ib.2)))))

end LabelScript

namespace PrepSnake

/-- `label_confused` from `src/data_preparation/data_preparation.py`:
`frame_data[inner_key]["confused"] = confused_value` for every frame and
inner body. -/
def label_confused (body_tracking_data : BodyTracking) (intervals : Finset ℤ) :
    BodyTracking :=
  body_tracking_data.map (fun f =>
    (f.1, f.2.map (fun ib =>
      (ib.1, dset ib.2 "confused" (Value.bool (decide (f.1 ∈ intervals)))))))

/-- `label_help` from `src/data_preparation/data_preparation.py`: convert each
RH interval `(start, end)` to `(int(start * r), int(end * r))`; a frame gets
`help = 1` when its number lies in some converted interval (the loop with
`break` is `List.any`), else `help = 0`; the value is assigned to every inner
body. -/
def label_help (body_tracking_data : BodyTracking)
    (rh_intervals : List (ℚ × ℚ)) (average_frame_rate : ℚ) : BodyTracking :=
  let rhFrames := rh_intervals.map (fun p =>
    (pyInt (p.1 * average_frame_rate), pyInt (p.2 * average_frame_rate)))
  body_tracking_data.map (fun f =>
    let helpValue : ℚ :=
      if rhFrames.any (fun p => decide (p.1 ≤ f.1) && decide (f.1 ≤ p.2)) then 1 else 0
    (f.1, f.2.map (fun ib => (ib.1, dset ib.2 "help" (Value.num helpValue)))))

end PrepSnake

/-- A row of the `reduct-highlights-export.csv` table;
`start` is `pd.to_timedelta(row['Timestamp']).total_seconds()` and
`duration` is `pd.to_timedelta(row['Duration']).total_seconds()`, both
modelled as rationals; `tags` is `row['Tags']`. -/
structure Row where
  start : ℚ
  duration : ℚ
  tags : String

namespace PrepSnake

/-- `calculate_end_times_with_updated_csv` from
`src/data_preparation/data_preparation.py`: for every row compute
`end = start + duration`, collect all `(start, end)` pairs in order, and
collect those of rows tagged `RH` separately. -/
def calculate_end_times_with_updated_csv (df : List Row) :
    List (ℚ × ℚ) × List (ℚ × ℚ) :=
  df.foldl (fun acc row =>
    (acc.1 ++ [(row.start, row.start + row.duration)],
      if row.tags = "RH" then acc.2 ++ [(row.start, row.start + row.duration)]
      else acc.2)) ([], [])

end PrepSnake

namespace PrepCap

/-- `label_body_tracking` from `src/Data Preparation/data_preparation.py`:
for each frame record of the list-shaped `body_tracking.json`, set
`frame['label'] = 1` when `frame['frame_number'] < average_frame_rate`, else
`0`.  A missing or non-numeric `frame_number` raises, rendered as `none`. -/
def label_body_tracking (body_data : List Body) (average_frame_rate : ℚ) :
    Option (List Body) :=
  body_data.mapM (fun frame =>
    match dget frame "frame_number" with
    | some (Value.num n) =>
        some (dset frame "label" (Value.num (if n < average_frame_rate then 1 else 0)))
    | _ => none)

end PrepCap

/-- Helper for stating claims: membership of `n` in the closed integer range
`[frames[2k], frames[2k+1]]` for some pair index `k` (the spec's union of
annotated intervals). -/
def inPairedIntervals (frames : List ℤ) (n : ℤ) : Prop :=
  ∃ k : ℕ, 2 * k + 1 < frames.length ∧
    frames.getD (2 * k) 0 ≤ n ∧ n ≤ frames.getD (2 * k + 1) 0

/-- The shared body-field expansion loop of the two generic `flatten_json`
copies (identical text in `src/Data Preparation/data_preparation.py` and
`src/data_preparation/data_preparation.py`).  Each field contributes a
sequence of record assignments, in order: a list whose elements are all lists
yields `record[key_i_j] = value[i][j]`; any other list yields
`record[key_i] = value[i]`; a non-list value yields `record[key] = value`.
Index suffixes are decimal as in Python's format strings. -/
def expandField (kv : String × Value) : List (String × Value) :=
  match kv.2 with
  | Value.list xs =>
      if xs.all Value.isList then
        xs.enum.flatMap (fun isub =>
          match isub.2 with
          | Value.list ys => ys.enum.map (fun jv =>
              (kv.1 ++ "_" ++ toString isub.1 ++ "_" ++ toString jv.1, jv.2))
          | _ => [])
      else
        xs.enum.map (fun iv => (kv.1 ++ "_" ++ toString iv.1, iv.2))
  | v => [(kv.1, v)]

/-- All record assignments performed for the fields of one body, in order. -/
def expandEntries (fields : Body) : List (String × Value) :=
  fields.flatMap expandField

/-- A flattened record: the initial dict literal followed by the expansion
assignments (Python dict assignment semantics). -/
def flattenRecord (init : Body) (fields : Body) : Body :=
  foldSet init (expandEntries fields)

namespace PrepCap

/-- `flatten_json` from `src/Data Preparation/data_preparation.py`: the input
is the list form of `body_tracking.json`.  For each frame dict,
`frame_number = frame.get('frame_number')` (`null` when missing); each
dict-valued item of the frame yields one record (`capRecord`) starting from
the dict literal with keys `frame_number` and `inner_key`, followed by the
expansion assignments of the body's fields. -/
def capRecord (frame : List (String × Value)) (ik : String) (fields : Body) :
    Body :=
  flattenRecord
    [("frame_number", (dget frame "frame_number").getD Value.null),
     ("inner_key", Value.str ik)] fields

def flatten_json (json_data : List (List (String × Value))) : List Body :=
  json_data.flatMap (fun frame =>
    frame.filterMap (fun item =>
      match item.2 with
      | Value.dict fields => some (capRecord frame item.1 fields)
      | _ => none))

end PrepCap

namespace PrepSnake

/-- The record `flatten_json` of `src/data_preparation/data_preparation.py`
builds for one inner item: `record['frame_number'] = frame` stores the RAW
JSON object key, a string (the source does not parse it), then `inner_key`,
then `body_tracking_error` (`1` when the frame has more than one body, else
`0`), followed by the ordered expansion assignments of the body's fields. -/
def snakeRecord (frame : String) (nBodies : ℕ) (ik : String) (fields : Body) :
    Body :=
  flattenRecord
    [("frame_number", Value.str frame),
     ("inner_key", Value.str ik),
     ("body_tracking_error", Value.num (if 1 < nBodies then 1 else 0))] fields

/-- The records one frame of the dict-shaped input contributes (the inner
loop of `flatten_json`): each dict-valued inner item yields one record. -/
def snakeFrameRecs (fr : String × List (String × Value)) : List Body :=
  fr.2.filterMap (fun item =>
    match item.2 with
    | Value.dict fields => some (snakeRecord fr.1 fr.2.length item.1 fields)
    | _ => none)

/-- `flatten_json` from `src/data_preparation/data_preparation.py`: the input
is the dict form of `body_tracking.json`, keyed by the frame-number strings
of the JSON file.  A frame with more than one body is appended to
`frames_with_errors`; each dict-valued inner item yields one `snakeRecord`. -/
def flatten_json (json_data : List (String × List (String × Value))) :
    List Body × List String :=
  json_data.foldl
    (fun (acc : List Body × List String) (fr : String × List (String × Value)) =>
      (acc.1 ++ snakeFrameRecs fr,
       if 1 < fr.2.length then acc.2 ++ [fr.1] else acc.2)) ([], [])

end PrepSnake

namespace ExportCsv

/-- The record built by `flatten_json` of `src/Data Preparation/export_csv.py`
for one `(frame, inner_key, inner_data)` triple.  The record has the fixed
columns `frame_number`, `inner_key`, `id`, `confused`, `ts`, `confidence`
(`.get`, `null` when absent); a present `velocity` must be a list with at
least three elements and contributes `velocity_x`, `velocity_y`,
`velocity_z`; every element of `keypoint` must be such a list and
contributes `keypoint_i_x`, `keypoint_i_y`, `keypoint_i_z`; every element of
`keypoint_confidence` contributes `keypoint_confidence_i`.  Accesses Python
would raise on (a non-list or too-short `velocity` or keypoint entry, a
non-list present `keypoint` or `keypoint_confidence`) are `none`. -/
def flattenBody (frame : ℤ) (ik : String) (inner : Body) : Option Body := do
  let record0 : Body :=
    [("frame_number", Value.num frame),
     ("inner_key", Value.str ik),
     ("id", (dget inner "id").getD Value.null),
     ("confused", (dget inner "confused").getD Value.null),
     ("ts", (dget inner "ts").getD Value.null),
     ("confidence", (dget inner "confidence").getD Value.null)]
  let rec1 ← match dget inner "velocity" with
    | none => some record0
    | some (Value.list (x :: y :: z :: _)) =>
        some (foldSet record0
          [("velocity_x", x), ("velocity_y", y), ("velocity_z", z)])
    | some _ => none
  let kps ← match dget inner "keypoint" with
    | none => some []
    | some (Value.list ys) => some ys
    | some _ => none
  let kpAssigns ← kps.enum.mapM (fun ikp =>
    match ikp.2 with
    | Value.list (x :: y :: z :: _) =>
        some [("keypoint_" ++ toString ikp.1 ++ "_x", x),
              ("keypoint_" ++ toString ikp.1 ++ "_y", y),
              ("keypoint_" ++ toString ikp.1 ++ "_z", z)]
    | _ => none)
  let rec2 := foldSet rec1 kpAssigns.flatten
  let kcs ← match dget inner "keypoint_confidence" with
    | none => some []
    | some (Value.list ys) => some ys
    | some _ => none
  return foldSet rec2
    (kcs.enum.map (fun ic => ("keypoint_confidence_" ++ toString ic.1, ic.2)))

/-- `flatten_json` from `src/Data Preparation/export_csv.py`: one record per
inner item of every frame (the dict form of `body_tracking.json`,
frame-number keys modelled as integers); a non-dict inner value raises
(`none`). -/
def flatten_json (json_data : List (ℤ × List (String × Value))) :
    Option (List Body) :=
  (json_data.mapM (fun (fr : ℤ × List (String × Value)) =>
    fr.2.mapM (fun (item : String × Value) =>
      match item.2 with
      | Value.dict inner => flattenBody fr.1 item.1 inner
      | _ => none))).map List.flatten

end ExportCsv

namespace PrepSnake

/-- `seconds_to_frames` from `src/data_preparation/data_preparation.py`
(lines 49-60).  Its `def` line lacks the comma between `seconds` and
`average_frame_rate` and is a SyntaxError, so the module cannot even be
imported; with the comma restored, the body
`[int(confused * average_frame_rate for second in confused)]` applies
`int()` to a generator expression and raises `TypeError`.  No call ever
returns a value. -/
def seconds_to_frames (seconds : List Value) (average_frame_rate : ℚ) :
    Option (List ℤ) :=
  none

/-- `extract_intervals_from_metadata` from
`src/data_preparation/data_preparation.py`: read `metadata.get("seconds", [])`,
convert it with the module's own `seconds_to_frames`, then union the closed
ranges over consecutive pairs (the loop text is identical to `label.py`'s
`extract_intervals`, shared here).  Because `seconds_to_frames` never
returns, the pairing loop is unreachable. -/
def extract_intervals_from_metadata (metadata : List (String × Value))
    (average_frame_rate : ℚ) : Option (Finset ℤ) :=
  match (dget metadata "seconds").getD (Value.list []) with
  | Value.list intervals_in_seconds =>
      match seconds_to_frames intervals_in_seconds average_frame_rate with
      | some frames_list => LabelScript.extract_intervals frames_list
      | none => none
  | _ => none

end PrepSnake

/-- Python `x is None` on the result of `dict.get`: true for a missing key
and for a stored JSON `null`. -/
def pyIsNone : Option Value → Bool
  | none => true
  | some Value.null => true
  | some _ => false

/-- A JSON number, when the value is one. -/
def toNum : Value → Option ℚ
  | Value.num q => some q
  | _ => none

/-- Python `len(v)` on a JSON value: defined for arrays, strings and objects
(the sized types `json.load` can produce); numbers, booleans and `null`
raise `TypeError`. -/
def pyLen : Value → Option ℕ
  | Value.list xs => some xs.length
  | Value.str s => some s.length
  | Value.dict d => some d.length
  | _ => none

namespace PrepCap

/-- `get_average_frame_rate_from_metadata` from
`src/Data Preparation/data_preparation.py`: returns
`(metadata.get("average_frame_rate"), metadata)`; no `None` check happens
here, so a missing key simply yields `None` as the first component. -/
def get_average_frame_rate_from_metadata (metadata : List (String × Value)) :
    Option Value × List (String × Value) :=
  (dget metadata "average_frame_rate", metadata)

/-- `update_metadata` from `src/Data Preparation/data_preparation.py`: when
the frame rate `is None` return `(None, None)` without writing; otherwise
write the metadata back unchanged and return `(rate, metadata)`.  The second
component of the result lists the file writes performed. -/
def update_metadata (metadata : List (String × Value)) :
    (Option Value × Option (List (String × Value))) × List (List (String × Value)) :=
  if pyIsNone (get_average_frame_rate_from_metadata metadata).1 then
    ((none, none), [])
  else
    (((get_average_frame_rate_from_metadata metadata).1, some metadata), [metadata])

/-- The observable effects of one run of `main` from
`src/Data Preparation/data_preparation.py`: metadata writes, the labeled
body-tracking file write, the exported CSV rows, and whether the
missing-frame-rate error message was printed. -/
structure MainResult where
  metadata_writes : List (List (String × Value))
  body_write : Option (List Body)
  csv_write : Option (List Body)
  error_printed : Bool

/-- `main` from `src/Data Preparation/data_preparation.py` as a function of
the parsed `metadata.json` and `body_tracking.json` contents: update the
metadata, and if the frame rate was `None` print the error and stop;
otherwise label the body file (a run-time error while labeling, e.g. a
non-numeric rate or frame number, aborts before any further write), re-read
it and export the flattened records as CSV rows. -/
def main (metadata : List (String × Value)) (body_data : List Body) : MainResult :=
  match update_metadata metadata with
  | ((none, _), ws) => ⟨ws, none, none, true⟩
  | ((some rv, _), ws) =>
      match rv with
      | Value.num r =>
          match label_body_tracking body_data r with
          | none => ⟨ws, none, none, false⟩
          | some labeled => ⟨ws, some labeled, some (flatten_json labeled), false⟩
      | _ => ⟨ws, none, none, false⟩

end PrepCap

namespace UpdateMetadata

/-- `get_average_frame_rate_from_metadata` from
`src/svo_export/update_metadata.py`: `(None, None)` when the rate is
missing (or `null`), otherwise the rate and the metadata. -/
def get_average_frame_rate_from_metadata (metadata : List (String × Value)) :
    Option Value × Option (List (String × Value)) :=
  if pyIsNone (dget metadata "average_frame_rate") then (none, none)
  else (dget metadata "average_frame_rate", some metadata)

/-- `main` from `src/svo_export/update_metadata.py` as a function of the
parsed `metadata.json`: result is the metadata written back, `none` when the
run exits without writing (missing rate) or raises.  `seconds` and `frames`
default to `[]`; `len()` succeeds on any sized value (array, string,
object - see `pyLen`) and equal lengths are written back unchanged; when the
lengths differ, `frames` is recomputed by `seconds_to_frames`, which is
modelled for an array of numeric second marks and a numeric rate (a string
or object `seconds` makes `sec * average_frame_rate` multiply a string by
the float rate, a `TypeError`; the Python-int-rate string-repetition corner
is outside the model, as JSON frame rates are floats). -/
def main (metadata : List (String × Value)) : Option (List (String × Value)) :=
  match (get_average_frame_rate_from_metadata metadata).1 with
  | none => none
  | some rv =>
      match pyLen ((dget metadata "seconds").getD (Value.list [])) with
      | none => none
      | some ls =>
          match pyLen ((dget metadata "frames").getD (Value.list [])) with
          | none => none
          | some lf =>
              if ls ≠ lf then
                match (dget metadata "seconds").getD (Value.list []) with
                | Value.list seconds_list =>
                    match rv with
                    | Value.num r =>
                        match seconds_list.mapM toNum with
                        | some secs =>
                            some (dset metadata "frames"
                              (Value.list ((seconds_to_frames secs r).map
                                (fun (z : ℤ) => Value.num (z : ℚ)))))
                        | none => none
                    | _ => none
                | _ => none
              else some metadata

end UpdateMetadata

theorem dget_dset_self {α β : Type} [DecidableEq α] (d : List (α × β)) (k : α) (v : β) :
    dget (dset d k v) k = some v := by
  induction d with
  | nil => simp [dset, dget]
  | cons p rest ih =>
      by_cases h : p.1 = k
      · simp [dset, h, dget]
      · simp [dset, h, dget, Ne.symm h, ih]

theorem dget_dset_ne {α β : Type} [DecidableEq α] (d : List (α × β)) (k q : α) (v : β)
    (hne : q ≠ k) : dget (dset d k v) q = dget d q := by
  induction d with
  | nil => simp [dset, dget, hne]
  | cons p rest ih =>
      by_cases h : p.1 = k
      · simp [dset, h, dget, hne]
      · by_cases hq : q = p.1 <;> simp [dset, h, dget, hq, ih]

theorem keys_dset {α β : Type} [DecidableEq α] (d : List (α × β)) (k : α) (v : β) :
    (dset d k v).map Prod.fst =
      if (dget d k).isSome then d.map Prod.fst else d.map Prod.fst ++ [k] := by
  induction d with
  | nil => simp [dset, dget]
  | cons p rest ih =>
      by_cases h : p.1 = k
      · simp [dset, h, dget]
      · have hk : ¬ k = p.1 := fun hq => h hq.symm
        simp only [dset, if_neg h, List.map_cons, dget, if_neg hk, ih]
        by_cases hs : (dget rest k).isSome <;> simp [hs]

theorem dset_of_dget_none {α β : Type} [DecidableEq α] (d : List (α × β)) (k : α) (v : β)
    (h : dget d k = none) : dset d k v = d ++ [(k, v)] := by
  induction d with
  | nil => simp [dset]
  | cons p rest ih =>
      by_cases hp : p.1 = k
      · exfalso
        have hx : dget (p :: rest) k = some p.2 := by simp [dget, hp]
        rw [h] at hx
        cases hx
      · have hk : ¬ k = p.1 := fun hq => hp hq.symm
        have h2 : dget rest k = none := by
          have hx := h
          simp only [dget, if_neg hk] at hx
          exact hx
        simp [dset, hp, ih h2]

theorem foldSet_append {α β : Type} [DecidableEq α] (ps : List (α × β)) :
    ∀ d : List (α × β), (ps.map Prod.fst).Nodup →
      (∀ k ∈ ps.map Prod.fst, dget d k = none) →
      foldSet d ps = d ++ ps := by
  induction ps with
  | nil => intro d _ _; simp [foldSet]
  | cons p rest ih =>
      intro d hnd hfresh
      have hnd1 : p.1 ∉ rest.map Prod.fst ∧ (rest.map Prod.fst).Nodup := by
        rw [List.map_cons, List.nodup_cons] at hnd
        exact hnd
      have hd : dget d p.1 = none := hfresh p.1 (by simp)
      have hstep : dset d p.1 p.2 = d ++ [p] := dset_of_dget_none d p.1 p.2 hd
      have hnd2 : (rest.map Prod.fst).Nodup := hnd1.2
      have hfresh2 : ∀ k ∈ rest.map Prod.fst, dget (d ++ [p]) k = none := by
        intro k hk
        have hkp : k ≠ p.1 := fun hEq => hnd1.1 (hEq ▸ hk)
        have h1 : dget d k = none := hfresh k (by simp [hk])
        have h2 : dget (dset d p.1 p.2) k = dget d k := dget_dset_ne d p.1 k p.2 hkp
        rw [hstep] at h2
        rw [h2, h1]
      have : foldSet (d ++ [p]) rest = (d ++ [p]) ++ rest := ih (d ++ [p]) hnd2 hfresh2
      calc foldSet d (p :: rest) = foldSet (dset d p.1 p.2) rest := rfl
        _ = foldSet (d ++ [p]) rest := by rw [hstep]
        _ = (d ++ [p]) ++ rest := this
        _ = d ++ p :: rest := by simp

theorem dget_foldSet {α β : Type} [DecidableEq α] (ps : List (α × β)) (q : α) :
    ∀ d : List (α × β),
      dget (foldSet d ps) q =
        match assignGet ps q with
        | some v => some v
        | none => dget d q := by
  induction ps with
  | nil => intro d; simp [foldSet, assignGet]
  | cons p rest ih =>
      intro d
      have hstep : foldSet d (p :: rest) = foldSet (dset d p.1 p.2) rest := rfl
      rw [hstep, ih (dset d p.1 p.2)]
      cases hag : assignGet rest q with
      | some v => simp [assignGet, hag]
      | none =>
          simp only [assignGet, hag]
          by_cases h : p.1 = q
          · have hq : q = p.1 := h.symm
            rw [if_pos h, hq, dget_dset_self]
          · rw [if_neg h, dget_dset_ne d p.1 q p.2 (fun hq => h hq.symm)]

theorem dget_eq_none_iff {α β : Type} [DecidableEq α] (d : List (α × β)) (k : α) :
    dget d k = none ↔ k ∉ d.map Prod.fst := by
  induction d with
  | nil => simp [dget]
  | cons p rest ih =>
      by_cases h : k = p.1 <;> simp [dget, h, ih]

theorem assignGet_eq_dget {α β : Type} [DecidableEq α] (d : List (α × β)) (k : α)
    (hnd : (d.map Prod.fst).Nodup) : assignGet d k = dget d k := by
  induction d with
  | nil => rfl
  | cons p rest ih =>
      have hnd1 : p.1 ∉ rest.map Prod.fst ∧ (rest.map Prod.fst).Nodup := by
        rw [List.map_cons, List.nodup_cons] at hnd
        exact hnd
      by_cases h : k = p.1
      · have hrest : dget rest k = none :=
          (dget_eq_none_iff rest k).mpr (by rw [h]; exact hnd1.1)
        simp only [assignGet, ih hnd1.2, hrest, dget]
        simp [h]
      · have hne : ¬ p.1 = k := fun hq => h hq.symm
        simp only [assignGet, ih hnd1.2, dget]
        cases hd : dget rest k with
        | some v => simp [h]
        | none => simp [h, hne]

theorem forall2_map_self {α : Type} (l : List α) (F : α → α) (R : α → α → Prop)
    (h : ∀ x ∈ l, R x (F x)) : List.Forall₂ R l (l.map F) := by
  induction l with
  | nil => exact List.Forall₂.nil
  | cons x xs ih =>
      exact List.Forall₂.cons (h x (by simp)) (ih (fun y hy => h y (by simp [hy])))

theorem getD_map_of_lt (l : List ℚ) (f : ℚ → ℤ) (i : ℕ) (h : i < l.length) :
    (l.map f).getD i 0 = f (l.getD i 0) := by
  rw [List.getD_eq_getElem?_getD, List.getD_eq_getElem?_getD, List.getElem?_map]
  rw [List.getElem?_eq_getElem h]
  simp

/-- The rows of the highlights table tagged `RH`. -/
def rhRows (df : List Row) : List Row :=
  df.filter (fun row => row.tags == "RH")

theorem calc_rh_aux (df : List Row) :
    ∀ acc : List (ℚ × ℚ) × List (ℚ × ℚ),
      (df.foldl (fun acc row =>
        (acc.1 ++ [(row.start, row.start + row.duration)],
          if row.tags = "RH" then acc.2 ++ [(row.start, row.start + row.duration)]
          else acc.2)) acc).2 =
        acc.2 ++ (rhRows df).map (fun row => (row.start, row.start + row.duration)) := by
  induction df with
  | nil => intro acc; simp [rhRows]
  | cons row rest ih =>
      intro acc
      rw [List.foldl_cons, ih]
      by_cases h : row.tags = "RH"
      · simp [rhRows, List.filter_cons, h]
      · simp [rhRows, List.filter_cons, h]

theorem calc_rh_eq (df : List Row) :
    (PrepSnake.calculate_end_times_with_updated_csv df).2 =
      (rhRows df).map (fun row => (row.start, row.start + row.duration)) := by
  have h := calc_rh_aux df ([], [])
  simpa [PrepSnake.calculate_end_times_with_updated_csv] using h

/-- C2: `label_help` applied to the RH intervals computed from the highlights
table sets, on every inner body of every frame `n`, the field `help` to `1`
exactly when some row tagged `RH` satisfies
`int(start * r) ≤ n ≤ int((start + duration) * r)`, and to `0` otherwise. -/
theorem label_help_spec (df : List Row) (r : ℚ) (bt : BodyTracking) :
    PrepSnake.label_help bt (PrepSnake.calculate_end_times_with_updated_csv df).2 r =
      bt.map (fun f => (f.1, f.2.map (fun ib => (ib.1, dset ib.2 "help" (Value.num
        (if ∃ row ∈ df, row.tags = "RH" ∧ pyInt (row.start * r) ≤ f.1 ∧
            f.1 ≤ pyInt ((row.start + row.duration) * r) then 1 else 0)))))) := by
  unfold PrepSnake.label_help
  apply List.map_congr_left
  intro f hf
  have hiff : (((PrepSnake.calculate_end_times_with_updated_csv df).2.map (fun p =>
      (pyInt (p.1 * r), pyInt (p.2 * r)))).any
        (fun p => decide (p.1 ≤ f.1) && decide (f.1 ≤ p.2)) = true) ↔
      ∃ row ∈ df, row.tags = "RH" ∧ pyInt (row.start * r) ≤ f.1 ∧
        f.1 ≤ pyInt ((row.start + row.duration) * r) := by
    rw [calc_rh_eq]
    simp only [List.any_eq_true, rhRows, List.map_map, List.mem_map, List.mem_filter,
      Function.comp, Bool.and_eq_true, decide_eq_true_eq, beq_iff_eq]
    constructor
    · rintro ⟨p, ⟨row, ⟨hrow, htag⟩, hp⟩, h1, h2⟩
      subst hp
      exact ⟨row, hrow, htag, h1, h2⟩
    · rintro ⟨row, hrow, htag, h1, h2⟩
      exact ⟨_, ⟨row, ⟨hrow, htag⟩, rfl⟩, h1, h2⟩
  simp only [hiff]

/-- C5: `label_body_tracking` in `src/Data Preparation/data_preparation.py`
compares the frame number with the average frame rate itself, not with any
annotated interval: with rate `30` and no annotation in sight, frame `10`
receives `label = 1` purely because `10 < 30`. -/
theorem label_body_tracking_ignores_annotations :
    PrepCap.label_body_tracking [[("frame_number", Value.num 10)]] 30 =
        some [[("frame_number", Value.num 10), ("label", Value.num 1)]] ∧
      PrepCap.label_body_tracking [[("frame_number", Value.num 40)]] 30 =
        some [[("frame_number", Value.num 40), ("label", Value.num 0)]] := by
  constructor
  · rfl
  · rfl

theorem inPairedIntervals_cons2 (a b : ℤ) (rest : List ℤ) (n : ℤ) :
    inPairedIntervals (a :: b :: rest) n ↔
      (a ≤ n ∧ n ≤ b) ∨ inPairedIntervals rest n := by
  constructor
  · rintro ⟨k, hk, h1, h2⟩
    cases k with
    | zero =>
        left
        constructor
        · simpa [List.getD] using h1
        · simpa [List.getD] using h2
    | succ j =>
        right
        have e1 : 2 * (j + 1) = 2 * j + 1 + 1 := by omega
        have e2 : 2 * (j + 1) + 1 = (2 * j + 1) + 1 + 1 := by omega
        refine ⟨j, ?_, ?_, ?_⟩
        · simp only [List.length_cons] at hk; omega
        · rw [e1] at h1; simpa [List.getD_cons_succ] using h1
        · rw [e2] at h2; simpa [List.getD_cons_succ] using h2
  · rintro (⟨h1, h2⟩ | ⟨j, hj, h1, h2⟩)
    · refine ⟨0, ?_, ?_, ?_⟩
      · simp only [List.length_cons]; omega
      · simpa [List.getD] using h1
      · simpa [List.getD] using h2
    · have e1 : 2 * (j + 1) = 2 * j + 1 + 1 := by omega
      have e2 : 2 * (j + 1) + 1 = (2 * j + 1) + 1 + 1 := by omega
      refine ⟨j + 1, ?_, ?_, ?_⟩
      · simp only [List.length_cons]; omega
      · rw [e1]; simpa [List.getD_cons_succ] using h1
      · rw [e2]; simpa [List.getD_cons_succ] using h2

/-- C8: on an even-length frames list `extract_intervals` succeeds (every
access `frames[i+1]` is in bounds) and returns exactly the union of the
closed ranges `[frames[2k], frames[2k+1]]`; on an odd-length list the final
access is out of bounds and the call fails. -/
theorem extract_intervals_spec (frames : List ℤ) :
    (Even frames.length →
      ∃ s, LabelScript.extract_intervals frames = some s ∧
        ∀ n : ℤ, n ∈ s ↔ inPairedIntervals frames n) ∧
    (¬ Even frames.length → LabelScript.extract_intervals frames = none) := by
  induction frames using LabelScript.extract_intervals.induct with
  | case1 =>
      constructor
      · intro _
        refine ⟨∅, rfl, ?_⟩
        intro n
        simp [inPairedIntervals]
      · intro h
        exact absurd (by simp) h
  | case2 x =>
      constructor
      · intro h
        rw [Nat.even_iff] at h
        simp at h
      · intro _
        rfl
  | case3 a b rest ih =>
      have hlen : (a :: b :: rest).length = rest.length + 2 := by simp
      have hpar : Even (a :: b :: rest).length ↔ Even rest.length := by
        rw [hlen, Nat.even_iff, Nat.even_iff]; omega
      constructor
      · intro h
        obtain ⟨s, hs, hmem⟩ := ih.1 (hpar.mp h)
        refine ⟨Finset.Icc a b ∪ s, ?_, ?_⟩
        · rw [LabelScript.extract_intervals, hs]; rfl
        · intro n
          rw [Finset.mem_union, Finset.mem_Icc, inPairedIntervals_cons2, hmem n]
      · intro h
        have : LabelScript.extract_intervals rest = none := ih.2 (fun he => h (hpar.mpr he))
        rw [LabelScript.extract_intervals, this]
        rfl

/-- Witness for C8 at concrete inputs: `[1, 3]` is even-length and succeeds;
`[1, 3, 5]` is odd-length and fails. -/
theorem extract_intervals_spec_witness :
    LabelScript.extract_intervals [1, 3, 5] = none ∧
      ∃ s, LabelScript.extract_intervals [1, 3] = some s ∧
        ∀ n : ℤ, n ∈ s ↔ inPairedIntervals [1, 3] n := by
  constructor
  · exact (extract_intervals_spec [1, 3, 5]).2 (by decide)
  · exact (extract_intervals_spec [1, 3]).1 (by decide)

theorem seconds_to_frames_um_eq_map (seconds : List ℚ) (r : ℚ) :
    UpdateMetadata.seconds_to_frames seconds r =
      seconds.map (fun sec => pyInt (sec * r)) := by
  suffices h : ∀ acc : List ℤ,
      seconds.foldl (fun frames sec => frames ++ [pyInt (sec * r)]) acc =
        acc ++ seconds.map (fun sec => pyInt (sec * r)) by
    simpa using h []
  induction seconds with
  | nil => intro acc; simp
  | cons x xs ih =>
      intro acc
      simp [List.foldl_cons, ih]

/-- C4: all parseable reimplementations of the seconds-to-frames conversion
compute `[int(sec * r) for sec in seconds]`. -/
theorem seconds_to_frames_all_eq (seconds : List ℚ) (r : ℚ) :
    UpdateMetadata.seconds_to_frames seconds r =
        seconds.map (fun sec => pyInt (sec * r)) ∧
      PrepCap.seconds_to_frames seconds r =
        seconds.map (fun sec => pyInt (sec * r)) := by
  exact ⟨seconds_to_frames_um_eq_map seconds r, rfl⟩

/-- C1 (amended): composing the seconds-to-frames conversion, interval
extraction and `label.py`'s `label_confused`: for every even-length list of
annotated second marks and every frame rate, provided no body record already
carries a `confused` key, the labeling writes `confused = (frame number lies
in the union of the closed ranges [int(s_2k * r), int(s_2k+1 * r)])` at the
front of every body record. -/
theorem label_confused_spec (seconds : List ℚ) (r : ℚ) (bt : BodyTracking)
    (hr : 0 < r) (heven : Even seconds.length)
    (hwf : ∀ f ∈ bt, ∀ ib ∈ f.2, (ib.2.map Prod.fst).Nodup)
    (hfresh : ∀ f ∈ bt, ∀ ib ∈ f.2, dget ib.2 "confused" = none) :
    ∃ s, LabelScript.extract_intervals (UpdateMetadata.seconds_to_frames seconds r) = some s ∧
      (∀ n : ℤ, n ∈ s ↔ ∃ k : ℕ, 2 * k + 1 < seconds.length ∧
        pyInt (seconds.getD (2 * k) 0 * r) ≤ n ∧ n ≤ pyInt (seconds.getD (2 * k + 1) 0 * r)) ∧
      LabelScript.label_confused bt s =
        bt.map (fun f => (f.1, f.2.map (fun ib =>
          (ib.1, ("confused", Value.bool (decide (f.1 ∈ s))) :: ib.2)))) := by
  have hmap : UpdateMetadata.seconds_to_frames seconds r =
      seconds.map (fun sec => pyInt (sec * r)) := seconds_to_frames_um_eq_map seconds r
  have hlen : (UpdateMetadata.seconds_to_frames seconds r).length = seconds.length := by
    rw [hmap]; simp
  obtain ⟨s, hs, hmem⟩ :=
    (extract_intervals_spec (UpdateMetadata.seconds_to_frames seconds r)).1
      (by rw [hlen]; exact heven)
  refine ⟨s, hs, ?_, ?_⟩
  · intro n
    rw [hmem n]
    unfold inPairedIntervals
    rw [hmap]
    constructor
    · rintro ⟨k, hk, h1, h2⟩
      have hk2 : 2 * k + 1 < seconds.length := by simpa using hk
      refine ⟨k, hk2, ?_, ?_⟩
      · rw [getD_map_of_lt seconds _ (2 * k) (by omega)] at h1
        exact h1
      · rw [getD_map_of_lt seconds _ (2 * k + 1) (by omega)] at h2
        exact h2
    · rintro ⟨k, hk, h1, h2⟩
      refine ⟨k, by simpa using hk, ?_, ?_⟩
      · rw [getD_map_of_lt seconds _ (2 * k) (by omega)]
        exact h1
      · rw [getD_map_of_lt seconds _ (2 * k + 1) (by omega)]
        exact h2
  · unfold LabelScript.label_confused
    apply List.map_congr_left
    intro f hf
    refine congrArg (fun x => (f.1, x)) ?_
    apply List.map_congr_left
    intro ib hib
    refine congrArg (fun x => (ib.1, x)) ?_
    have h1 : dictOfPairs (("confused", Value.bool (decide (f.1 ∈ s))) :: ib.2) =
        foldSet [("confused", Value.bool (decide (f.1 ∈ s)))] ib.2 := rfl
    rw [h1]
    rw [foldSet_append ib.2 [("confused", Value.bool (decide (f.1 ∈ s)))]
      (hwf f hf ib hib) ?_]
    · simp
    · intro k hk
      have hne : k ≠ "confused" := by
        intro hEq
        have h0 := hfresh f hf ib hib
        rw [dget_eq_none_iff] at h0
        exact h0 (hEq ▸ hk)
      simp [dget, hne]

/-- C1 counterexample: on a body that already carries a `confused` key,
`label_confused` keeps the stale value.  Seconds `[0, 1]` at rate `30` give
the frame interval `[0, 30]`, frame `5` lies inside it, yet the labeled body
still says `confused = false`, because `OrderedDict([('confused', True)] +
items)` lets the later duplicate key win. -/
theorem label_confused_stale_key :
    UpdateMetadata.seconds_to_frames [0, 1] 30 = [0, 30] ∧
      LabelScript.extract_intervals [0, 30] = some (Finset.Icc 0 30 ∪ ∅) ∧
      (5 : ℤ) ∈ Finset.Icc (0 : ℤ) 30 ∪ (∅ : Finset ℤ) ∧
      LabelScript.label_confused [(5, [("b", [("confused", Value.bool false)])])]
          (Finset.Icc 0 30 ∪ ∅) =
        [(5, [("b", [("confused", Value.bool false)])])] := by
  refine ⟨?_, rfl, by decide, ?_⟩
  · rw [seconds_to_frames_um_eq_map]
    norm_num [pyInt, Int.tdiv_one, Int.zero_tdiv]
  · rfl

/-- Witness for C1 at a concrete input: seconds `[0, 1]`, rate `30`, one frame
`5` with one body carrying only an `id` field. -/
theorem label_confused_spec_witness :
    ∃ s, LabelScript.extract_intervals (UpdateMetadata.seconds_to_frames [0, 1] 30) = some s ∧
      (∀ n : ℤ, n ∈ s ↔ ∃ k : ℕ, 2 * k + 1 < ([0, (1 : ℚ)]).length ∧
        pyInt (([0, (1 : ℚ)]).getD (2 * k) 0 * 30) ≤ n ∧
          n ≤ pyInt (([0, (1 : ℚ)]).getD (2 * k + 1) 0 * 30)) ∧
      LabelScript.label_confused [(5, [("b", [("id", Value.num 7)])])] s =
        [(5, [("b", [("id", Value.num 7)])])].map (fun f => (f.1, f.2.map (fun ib =>
          (ib.1, ("confused", Value.bool (decide (f.1 ∈ s))) :: ib.2)))) := by
  exact label_confused_spec [0, 1] 30 [(5, [("b", [("id", Value.num 7)])])]
    (by norm_num) (by decide) (by simp) (by simp [dget])

/-- The frame condition of the labelers: same frame keys in the same order,
same inner body keys per frame, and every body field other than the two label
keys `confused` and `help` unchanged. -/
def LabelingPreserves (bt out : BodyTracking) : Prop :=
  out.map Prod.fst = bt.map Prod.fst ∧
  List.Forall₂ (fun f g : ℤ × FrameData =>
    g.2.map Prod.fst = f.2.map Prod.fst ∧
    List.Forall₂ (fun ib jb : String × Body =>
      ∀ k : String, k ≠ "confused" → k ≠ "help" →
        dget jb.2 k = dget ib.2 k) f.2 g.2) bt out

/-- C10: all three labelers only touch the `confused` / `help` keys: frames,
bodies per frame and every other pre-existing field survive unchanged. -/
theorem labeling_frame_preserving (bt : BodyTracking) (intervals : Finset ℤ)
    (rh : List (ℚ × ℚ)) (r : ℚ)
    (hwf : ∀ f ∈ bt, ∀ ib ∈ f.2, (ib.2.map Prod.fst).Nodup) :
    LabelingPreserves bt (PrepSnake.label_confused bt intervals) ∧
      LabelingPreserves bt (PrepSnake.label_help bt rh r) ∧
      LabelingPreserves bt (LabelScript.label_confused bt intervals) := by
  have hbody_ls : ∀ f ∈ bt, ∀ ib ∈ f.2, ∀ k : String, k ≠ "confused" →
      dget (dictOfPairs (("confused", Value.bool (decide (f.1 ∈ intervals))) :: ib.2)) k =
        dget ib.2 k := by
    intro f hf ib hib k hk
    have h1 : dictOfPairs (("confused", Value.bool (decide (f.1 ∈ intervals))) :: ib.2) =
        foldSet [("confused", Value.bool (decide (f.1 ∈ intervals)))] ib.2 := rfl
    rw [h1, dget_foldSet, assignGet_eq_dget ib.2 k (hwf f hf ib hib)]
    cases hd : dget ib.2 k with
    | some v => rfl
    | none => simp [dget, hk]
  refine ⟨⟨?_, ?_⟩, ⟨?_, ?_⟩, ⟨?_, ?_⟩⟩
  · simp [PrepSnake.label_confused, List.map_map, Function.comp]
  · apply forall2_map_self
    intro f _
    refine ⟨by simp [List.map_map, Function.comp], ?_⟩
    apply forall2_map_self
    intro ib _
    intro k hk _
    exact dget_dset_ne ib.2 "confused" k _ hk
  · simp [PrepSnake.label_help, List.map_map, Function.comp]
  · apply forall2_map_self
    intro f _
    refine ⟨by simp [List.map_map, Function.comp], ?_⟩
    apply forall2_map_self
    intro ib _
    intro k _ hk
    exact dget_dset_ne ib.2 "help" k _ hk
  · simp [LabelScript.label_confused, List.map_map, Function.comp]
  · apply forall2_map_self
    intro f hf
    refine ⟨by simp [List.map_map, Function.comp], ?_⟩
    apply forall2_map_self
    intro ib hib
    intro k hk _
    exact hbody_ls f hf ib hib k hk

/-- Witness for C10 at a concrete input: one frame, one body, one `id`
field, one interval set. -/
theorem labeling_frame_preserving_witness :
    LabelingPreserves [((3 : ℤ), [("b", [("id", Value.num 7)])])]
        (PrepSnake.label_confused [((3 : ℤ), [("b", [("id", Value.num 7)])])] (Finset.Icc 0 9)) ∧
      LabelingPreserves [((3 : ℤ), [("b", [("id", Value.num 7)])])]
        (PrepSnake.label_help [((3 : ℤ), [("b", [("id", Value.num 7)])])] [(0, 1)] 30) ∧
      LabelingPreserves [((3 : ℤ), [("b", [("id", Value.num 7)])])]
        (LabelScript.label_confused [((3 : ℤ), [("b", [("id", Value.num 7)])])] (Finset.Icc 0 9)) := by
  exact labeling_frame_preserving [((3 : ℤ), [("b", [("id", Value.num 7)])])]
    (Finset.Icc 0 9) [(0, 1)] 30 (by simp)

/-- C7: on a metadata object lacking the `average_frame_rate` key,
`get_average_frame_rate_from_metadata` returns `None` as the rate,
`update_metadata` returns `(None, None)` and writes nothing, and `main`
prints the error and stops: no metadata write, no body-tracking write, no
CSV write. -/
theorem missing_frame_rate_aborts (metadata : List (String × Value))
    (body_data : List Body)
    (h : dget metadata "average_frame_rate" = none) :
    (PrepCap.get_average_frame_rate_from_metadata metadata).1 = none ∧
      PrepCap.update_metadata metadata = ((none, none), []) ∧
      PrepCap.main metadata body_data = ⟨[], none, none, true⟩ := by
  have h1 : (PrepCap.get_average_frame_rate_from_metadata metadata).1 = none := h
  have h2 : PrepCap.update_metadata metadata = ((none, none), []) := by
    unfold PrepCap.update_metadata
    rw [h1]
    rfl
  refine ⟨h1, h2, ?_⟩
  unfold PrepCap.main
  rw [h2]

/-- Witness for C7: the empty metadata object. -/
theorem missing_frame_rate_aborts_witness :
    (PrepCap.get_average_frame_rate_from_metadata []).1 = none ∧
      PrepCap.update_metadata [] = ((none, none), []) ∧
      PrepCap.main [] [[("frame_number", Value.num 1)]] = ⟨[], none, none, true⟩ :=
  missing_frame_rate_aborts [] [[("frame_number", Value.num 1)]] rfl

theorem mapM_toNum_length (l : List Value) :
    ∀ l2 : List ℚ, l.mapM toNum = some l2 → l2.length = l.length := by
  induction l with
  | nil =>
      intro l2 h
      simp only [List.mapM_nil, pure, Option.some.injEq] at h
      simp [← h]
  | cons x xs ih =>
      intro l2 h
      rw [List.mapM_cons] at h
      cases hx : toNum x with
      | none => rw [hx] at h; simp at h
      | some q =>
          rw [hx] at h
          cases hxs : xs.mapM toNum with
          | none => rw [hxs] at h; simp at h
          | some qs =>
              rw [hxs] at h
              simp only [Option.bind_some, Option.pure_def, Option.bind_eq_bind,
                Option.some_bind, Option.some.injEq] at h
              rw [← h]
              simp [ih qs hxs]

/-- C9: whenever `main` of `src/svo_export/update_metadata.py` writes the
metadata back, the written `frames` value and the written `seconds` value
have equal Python length: equal `len()`s (of any sized values) are written
back unchanged, and differing lengths trigger recomputation by
`seconds_to_frames`, which yields one frame per second mark. -/
theorem written_metadata_length_invariant (metadata w : List (String × Value))
    (h : UpdateMetadata.main metadata = some w) :
    pyLen ((dget w "seconds").getD (Value.list [])) =
      pyLen ((dget w "frames").getD (Value.list [])) := by
  unfold UpdateMetadata.main at h
  cases hg : (UpdateMetadata.get_average_frame_rate_from_metadata metadata).1 with
  | none => rw [hg] at h; cases h
  | some rv =>
      rw [hg] at h
      cases hps : pyLen ((dget metadata "seconds").getD (Value.list [])) with
      | none => rw [hps] at h; cases h
      | some ls =>
          rw [hps] at h
          cases hpf : pyLen ((dget metadata "frames").getD (Value.list [])) with
          | none => rw [hpf] at h; cases h
          | some lf =>
              rw [hpf] at h
              dsimp only at h
              by_cases hlen : ls ≠ lf
              · rw [if_pos hlen] at h
                cases hs : (dget metadata "seconds").getD (Value.list []) with
                | null => rw [hs] at h; cases h
                | bool b => rw [hs] at h; cases h
                | num q => rw [hs] at h; cases h
                | str s => rw [hs] at h; cases h
                | dict d => rw [hs] at h; cases h
                | list seconds_list =>
                    rw [hs] at h
                    dsimp only at h
                    cases rv with
                    | null => cases h
                    | bool b => cases h
                    | str s => cases h
                    | list l => cases h
                    | dict d => cases h
                    | num r =>
                        dsimp only at h
                        cases hm : seconds_list.mapM toNum with
                        | none => rw [hm] at h; cases h
                        | some secs =>
                            rw [hm] at h
                            have hw : w = dset metadata "frames"
                                (Value.list ((UpdateMetadata.seconds_to_frames secs r).map
                                  (fun (z : ℤ) => Value.num (z : ℚ)))) := by
                              cases h
                              rfl
                            subst hw
                            rw [dget_dset_ne metadata "frames" "seconds" _ (by decide), hs]
                            rw [dget_dset_self]
                            simp only [Option.getD_some, pyLen]
                            have hlen1 : (UpdateMetadata.seconds_to_frames secs r).length =
                                secs.length := by
                              rw [seconds_to_frames_um_eq_map]
                              simp
                            have hlen2 : secs.length = seconds_list.length :=
                              mapM_toNum_length seconds_list secs hm
                            simp [hlen1, hlen2]
              · rw [if_neg hlen] at h
                have hw : w = metadata := by
                  cases h
                  rfl
                subst hw
                rw [hps, hpf]
                have hEq : ls = lf := by omega
                rw [hEq]

/-- Witness for C9 at two concrete inputs: a metadata object with no
`seconds` key (defaulting to the empty list) and a nonempty `frames` list,
so `frames` is recomputed; and one whose `seconds` is a string of the same
`len()` as its `frames` list, written back unchanged. -/
theorem written_metadata_length_invariant_witness :
    UpdateMetadata.main
        [("average_frame_rate", Value.num 30), ("frames", Value.list [Value.num 5])] =
      some [("average_frame_rate", Value.num 30), ("frames", Value.list [])] ∧
    pyLen ((dget [("average_frame_rate", Value.num 30),
        ("frames", Value.list [])] "seconds").getD (Value.list [])) =
      pyLen ((dget [("average_frame_rate", Value.num 30),
        ("frames", Value.list [])] "frames").getD (Value.list [])) ∧
    UpdateMetadata.main
        [("average_frame_rate", Value.num 30), ("seconds", Value.str "abc"),
         ("frames", Value.list [Value.num 1, Value.num 2, Value.num 3])] =
      some [("average_frame_rate", Value.num 30), ("seconds", Value.str "abc"),
         ("frames", Value.list [Value.num 1, Value.num 2, Value.num 3])] ∧
    pyLen ((dget [("average_frame_rate", Value.num 30), ("seconds", Value.str "abc"),
        ("frames", Value.list [Value.num 1, Value.num 2, Value.num 3])]
          "seconds").getD (Value.list [])) =
      pyLen ((dget [("average_frame_rate", Value.num 30), ("seconds", Value.str "abc"),
        ("frames", Value.list [Value.num 1, Value.num 2, Value.num 3])]
          "frames").getD (Value.list [])) := by
  have hmain1 : UpdateMetadata.main
      [("average_frame_rate", Value.num 30), ("frames", Value.list [Value.num 5])] =
      some [("average_frame_rate", Value.num 30), ("frames", Value.list [])] := rfl
  have hmain2 : UpdateMetadata.main
      [("average_frame_rate", Value.num 30), ("seconds", Value.str "abc"),
       ("frames", Value.list [Value.num 1, Value.num 2, Value.num 3])] =
      some [("average_frame_rate", Value.num 30), ("seconds", Value.str "abc"),
       ("frames", Value.list [Value.num 1, Value.num 2, Value.num 3])] := rfl
  exact ⟨hmain1, written_metadata_length_invariant _ _ hmain1,
    hmain2, written_metadata_length_invariant _ _ hmain2⟩

theorem dget_append {α β : Type} [DecidableEq α] (a b : List (α × β)) (k : α) :
    dget (a ++ b) k =
      match dget a k with
      | some v => some v
      | none => dget b k := by
  induction a with
  | nil => simp [dget]
  | cons p rest ih =>
      by_cases h : k = p.1 <;> simp [dget, h, ih]

theorem dget_of_mem_nodup {α β : Type} [DecidableEq α] (d : List (α × β)) (k : α) (v : β)
    (hmem : (k, v) ∈ d) (hnd : (d.map Prod.fst).Nodup) : dget d k = some v := by
  induction d with
  | nil => cases hmem
  | cons p rest ih =>
      rw [List.map_cons, List.nodup_cons] at hnd
      cases List.mem_cons.mp hmem with
      | inl hEq => rw [← hEq]; simp [dget]
      | inr hmem2 =>
          have hk : k ≠ p.1 := by
            intro hEq
            exact hnd.1 (hEq ▸ (List.mem_map.mpr ⟨(k, v), hmem2, rfl⟩))
          simp [dget, hk, ih hmem2 hnd.2]

theorem snake_flatten_aux (json_data : List (String × List (String × Value))) :
    ∀ acc : List Body × List String,
      json_data.foldl
        (fun (acc : List Body × List String) (fr : String × List (String × Value)) =>
          (acc.1 ++ PrepSnake.snakeFrameRecs fr,
           if 1 < fr.2.length then acc.2 ++ [fr.1] else acc.2)) acc =
        (acc.1 ++ json_data.flatMap PrepSnake.snakeFrameRecs,
         acc.2 ++ json_data.filterMap (fun fr =>
           if 1 < fr.2.length then some fr.1 else none)) := by
  induction json_data with
  | nil => intro acc; simp
  | cons fr rest ih =>
      intro acc
      rw [List.foldl_cons, ih]
      by_cases h : 1 < fr.2.length <;>
        simp [h, List.flatMap_cons, List.filterMap_cons]

theorem expandField_of_not_list (k : String) (v : Value)
    (h : Value.isList v = false) : expandField (k, v) = [(k, v)] := by
  cases v <;> first | rfl | (simp [Value.isList] at h)

theorem expandField_of_flat_list (k : String) (xs : List Value)
    (h : xs.all Value.isList = false) :
    expandField (k, Value.list xs) =
      xs.enum.map (fun iv => (k ++ "_" ++ toString iv.1, iv.2)) := by
  simp [expandField, h]

theorem expandField_of_all_lists (k : String) (xs : List Value)
    (h : xs.all Value.isList = true) :
    expandField (k, Value.list xs) =
      xs.enum.flatMap (fun isub =>
        match isub.2 with
        | Value.list ys => ys.enum.map (fun jv =>
            (k ++ "_" ++ toString isub.1 ++ "_" ++ toString jv.1, jv.2))
        | _ => []) := by
  simp [expandField, h]

theorem flattenRecord_lookup_spec (init : Body) (fields : Body)
    (hnd : ((expandEntries fields).map Prod.fst).Nodup)
    (hfresh : ∀ k ∈ (expandEntries fields).map Prod.fst, dget init k = none) :
    flattenRecord init fields = init ++ expandEntries fields ∧
    (∀ kv ∈ fields, Value.isList kv.2 = false →
      dget (flattenRecord init fields) kv.1 = some kv.2) ∧
    (∀ kv ∈ fields, ∀ xs, kv.2 = Value.list xs → xs.all Value.isList = false →
      ∀ i : ℕ, i < xs.length →
      dget (flattenRecord init fields) (kv.1 ++ "_" ++ toString i) =
        some (xs.getD i Value.null)) ∧
    (∀ kv ∈ fields, ∀ xs ys, kv.2 = Value.list xs → xs.all Value.isList = true →
      ∀ i j : ℕ, i < xs.length → xs.getD i Value.null = Value.list ys →
      j < ys.length →
      dget (flattenRecord init fields)
          (kv.1 ++ "_" ++ toString i ++ "_" ++ toString j) =
        some (ys.getD j Value.null)) := by
  have hrec : flattenRecord init fields = init ++ expandEntries fields := by
    unfold flattenRecord
    exact foldSet_append (expandEntries fields) init hnd hfresh
  refine ⟨hrec, ?_, ?_, ?_⟩
  · intro kv hkv hnl
    obtain ⟨k1, v1⟩ := kv
    simp only at hnl ⊢
    have hmem : (k1, v1) ∈ expandEntries fields := by
      apply List.mem_flatMap.mpr
      exact ⟨(k1, v1), hkv, by rw [expandField_of_not_list k1 v1 hnl]; simp⟩
    have hkey : k1 ∈ (expandEntries fields).map Prod.fst :=
      List.mem_map.mpr ⟨(k1, v1), hmem, rfl⟩
    rw [hrec, dget_append, hfresh k1 hkey]
    exact dget_of_mem_nodup _ k1 v1 hmem hnd
  · intro kv hkv xs hxs hall i hilt
    obtain ⟨k1, v1⟩ := kv
    simp only at hxs ⊢
    subst hxs
    have hgd : xs.getD i Value.null = xs[i] :=
      List.getD_eq_getElem xs Value.null hilt
    have henum : (i, xs[i]) ∈ xs.enum :=
      List.mk_mem_enum_iff_getElem?.mpr (List.getElem?_eq_getElem hilt)
    have hmem : (k1 ++ "_" ++ toString i, xs[i]) ∈ expandEntries fields := by
      apply List.mem_flatMap.mpr
      refine ⟨(k1, Value.list xs), hkv, ?_⟩
      rw [expandField_of_flat_list k1 xs hall]
      exact List.mem_map.mpr ⟨(i, xs[i]), henum, rfl⟩
    have hkey : (k1 ++ "_" ++ toString i) ∈ (expandEntries fields).map Prod.fst :=
      List.mem_map.mpr ⟨_, hmem, rfl⟩
    rw [hrec, dget_append, hfresh _ hkey, hgd]
    exact dget_of_mem_nodup _ _ _ hmem hnd
  · intro kv hkv xs ys hxs hall i j hilt hsub hjlt
    obtain ⟨k1, v1⟩ := kv
    simp only at hxs ⊢
    subst hxs
    rw [List.getD_eq_getElem xs Value.null hilt] at hsub
    have henumi : (i, xs[i]) ∈ xs.enum :=
      List.mk_mem_enum_iff_getElem?.mpr (List.getElem?_eq_getElem hilt)
    have hgdj : ys.getD j Value.null = ys[j] :=
      List.getD_eq_getElem ys Value.null hjlt
    have henumj : (j, ys[j]) ∈ ys.enum :=
      List.mk_mem_enum_iff_getElem?.mpr (List.getElem?_eq_getElem hjlt)
    have hmem : (k1 ++ "_" ++ toString i ++ "_" ++ toString j, ys[j]) ∈
        expandEntries fields := by
      apply List.mem_flatMap.mpr
      refine ⟨(k1, Value.list xs), hkv, ?_⟩
      rw [expandField_of_all_lists k1 xs hall]
      apply List.mem_flatMap.mpr
      refine ⟨(i, xs[i]), henumi, ?_⟩
      rw [hsub]
      exact List.mem_map.mpr ⟨(j, ys[j]), henumj, rfl⟩
    have hkey : (k1 ++ "_" ++ toString i ++ "_" ++ toString j) ∈
        (expandEntries fields).map Prod.fst :=
      List.mem_map.mpr ⟨_, hmem, rfl⟩
    rw [hrec, dget_append, hfresh _ hkey, hgdj]
    exact dget_of_mem_nodup _ _ _ hmem hnd

/-- C3 (amended): both generic flatteners produce exactly one record per
dict-valued `(frame, body)` pair; provided the expanded field keys are
duplicate-free and avoid each record's reserved keys (`frame_number` and
`inner_key`, plus `body_tracking_error` for the dict-input copy), the record
is the initial dict literal followed by the field expansion, so it carries
the frame identification and the body's inner key, every scalar field
verbatim under its own key, every flat list field under `key_0 .. key_(n-1)`,
and every list-of-lists field under `key_i_j`. -/
theorem flatten_json_copies_fields (json_data : List (List (String × Value)))
    (snake_data : List (String × List (String × Value)))
    (hcap : ∀ frame ∈ json_data, ∀ item ∈ frame, ∀ fields,
      item.2 = Value.dict fields →
      ((expandEntries fields).map Prod.fst).Nodup ∧
      "frame_number" ∉ (expandEntries fields).map Prod.fst ∧
      "inner_key" ∉ (expandEntries fields).map Prod.fst)
    (hsnake : ∀ fr ∈ snake_data, ∀ item ∈ fr.2, ∀ fields,
      item.2 = Value.dict fields →
      ((expandEntries fields).map Prod.fst).Nodup ∧
      "frame_number" ∉ (expandEntries fields).map Prod.fst ∧
      "inner_key" ∉ (expandEntries fields).map Prod.fst ∧
      "body_tracking_error" ∉ (expandEntries fields).map Prod.fst) :
    PrepCap.flatten_json json_data =
      json_data.flatMap (fun frame => frame.filterMap (fun item =>
        match item.2 with
        | Value.dict fields => some (PrepCap.capRecord frame item.1 fields)
        | _ => none)) ∧
    PrepSnake.flatten_json snake_data =
      (snake_data.flatMap PrepSnake.snakeFrameRecs,
       snake_data.filterMap (fun fr =>
         if 1 < fr.2.length then some fr.1 else none)) ∧
    (∀ frame ∈ json_data, ∀ item ∈ frame, ∀ fields,
      item.2 = Value.dict fields →
      PrepCap.capRecord frame item.1 fields =
        [("frame_number", (dget frame "frame_number").getD Value.null),
         ("inner_key", Value.str item.1)] ++ expandEntries fields ∧
      dget (PrepCap.capRecord frame item.1 fields) "frame_number" =
        some ((dget frame "frame_number").getD Value.null) ∧
      dget (PrepCap.capRecord frame item.1 fields) "inner_key" =
        some (Value.str item.1) ∧
      (∀ kv ∈ fields, Value.isList kv.2 = false →
        dget (PrepCap.capRecord frame item.1 fields) kv.1 = some kv.2) ∧
      (∀ kv ∈ fields, ∀ xs, kv.2 = Value.list xs →
        xs.all Value.isList = false → ∀ i : ℕ, i < xs.length →
        dget (PrepCap.capRecord frame item.1 fields) (kv.1 ++ "_" ++ toString i) =
          some (xs.getD i Value.null)) ∧
      (∀ kv ∈ fields, ∀ xs ys, kv.2 = Value.list xs →
        xs.all Value.isList = true → ∀ i j : ℕ, i < xs.length →
        xs.getD i Value.null = Value.list ys → j < ys.length →
        dget (PrepCap.capRecord frame item.1 fields)
            (kv.1 ++ "_" ++ toString i ++ "_" ++ toString j) =
          some (ys.getD j Value.null))) ∧
    (∀ fr ∈ snake_data, ∀ item ∈ fr.2, ∀ fields,
      item.2 = Value.dict fields →
      PrepSnake.snakeRecord fr.1 fr.2.length item.1 fields =
        [("frame_number", Value.str fr.1), ("inner_key", Value.str item.1),
         ("body_tracking_error",
           Value.num (if 1 < fr.2.length then 1 else 0))] ++
          expandEntries fields ∧
      dget (PrepSnake.snakeRecord fr.1 fr.2.length item.1 fields)
          "frame_number" = some (Value.str fr.1) ∧
      dget (PrepSnake.snakeRecord fr.1 fr.2.length item.1 fields)
          "inner_key" = some (Value.str item.1) ∧
      dget (PrepSnake.snakeRecord fr.1 fr.2.length item.1 fields)
          "body_tracking_error" =
        some (Value.num (if 1 < fr.2.length then 1 else 0)) ∧
      (∀ kv ∈ fields, Value.isList kv.2 = false →
        dget (PrepSnake.snakeRecord fr.1 fr.2.length item.1 fields) kv.1 =
          some kv.2) ∧
      (∀ kv ∈ fields, ∀ xs, kv.2 = Value.list xs →
        xs.all Value.isList = false → ∀ i : ℕ, i < xs.length →
        dget (PrepSnake.snakeRecord fr.1 fr.2.length item.1 fields)
            (kv.1 ++ "_" ++ toString i) = some (xs.getD i Value.null)) ∧
      (∀ kv ∈ fields, ∀ xs ys, kv.2 = Value.list xs →
        xs.all Value.isList = true → ∀ i j : ℕ, i < xs.length →
        xs.getD i Value.null = Value.list ys → j < ys.length →
        dget (PrepSnake.snakeRecord fr.1 fr.2.length item.1 fields)
            (kv.1 ++ "_" ++ toString i ++ "_" ++ toString j) =
          some (ys.getD j Value.null))) := by
  refine ⟨rfl, ?_, ?_, ?_⟩
  · unfold PrepSnake.flatten_json
    rw [snake_flatten_aux]
    simp
  · intro frame hf item hi fields hfield
    obtain ⟨hnd, hfn, hik⟩ := hcap frame hf item hi fields hfield
    have hfresh : ∀ k ∈ (expandEntries fields).map Prod.fst,
        dget [("frame_number", (dget frame "frame_number").getD Value.null),
              ("inner_key", Value.str item.1)] k = none := by
      intro k hk
      have h1 : ¬ k = "frame_number" := fun e => hfn (e ▸ hk)
      have h2 : ¬ k = "inner_key" := fun e => hik (e ▸ hk)
      simp [dget, h1, h2]
    have hspec := flattenRecord_lookup_spec
      [("frame_number", (dget frame "frame_number").getD Value.null),
       ("inner_key", Value.str item.1)] fields hnd hfresh
    have hrec : PrepCap.capRecord frame item.1 fields =
        [("frame_number", (dget frame "frame_number").getD Value.null),
         ("inner_key", Value.str item.1)] ++ expandEntries fields := hspec.1
    refine ⟨hrec, ?_, ?_, hspec.2.1, hspec.2.2.1, hspec.2.2.2⟩
    · rw [hrec, dget_append]
      simp [dget]
    · rw [hrec, dget_append]
      simp [dget]
  · intro fr hf item hi fields hfield
    obtain ⟨hnd, hfn, hik, hbte⟩ := hsnake fr hf item hi fields hfield
    have hfresh : ∀ k ∈ (expandEntries fields).map Prod.fst,
        dget [("frame_number", Value.str fr.1), ("inner_key", Value.str item.1),
              ("body_tracking_error",
                Value.num (if 1 < fr.2.length then 1 else 0))] k = none := by
      intro k hk
      have h1 : ¬ k = "frame_number" := fun e => hfn (e ▸ hk)
      have h2 : ¬ k = "inner_key" := fun e => hik (e ▸ hk)
      have h3 : ¬ k = "body_tracking_error" := fun e => hbte (e ▸ hk)
      simp [dget, h1, h2, h3]
    have hspec := flattenRecord_lookup_spec
      [("frame_number", Value.str fr.1), ("inner_key", Value.str item.1),
       ("body_tracking_error", Value.num (if 1 < fr.2.length then 1 else 0))]
      fields hnd hfresh
    have hrec : PrepSnake.snakeRecord fr.1 fr.2.length item.1 fields =
        [("frame_number", Value.str fr.1), ("inner_key", Value.str item.1),
         ("body_tracking_error",
           Value.num (if 1 < fr.2.length then 1 else 0))] ++
          expandEntries fields := hspec.1
    refine ⟨hrec, ?_, ?_, ?_, hspec.2.1, hspec.2.2.1, hspec.2.2.2⟩
    · rw [hrec, dget_append]
      simp [dget]
    · rw [hrec, dget_append]
      simp [dget]
    · rw [hrec, dget_append]
      simp [dget]

/-- C3 counterexample: the `export_csv.py` flattener does not copy arbitrary
body fields: a body with a flat list field `position = [1, 2]` yields a
record with only the fixed columns and no `position_0` key at all, while the
claim requires `position_0 = 1`. -/
theorem export_flatten_drops_fields :
    ExportCsv.flatten_json
        [((0 : ℤ), [("b", Value.dict
          [("position", Value.list [Value.num 1, Value.num 2])])])] =
      some [[("frame_number", Value.num 0), ("inner_key", Value.str "b"),
        ("id", Value.null), ("confused", Value.null), ("ts", Value.null),
        ("confidence", Value.null)]] ∧
    dget [("frame_number", Value.num 0), ("inner_key", Value.str "b"),
        ("id", Value.null), ("confused", Value.null), ("ts", Value.null),
        ("confidence", Value.null)] "position_0" = none := by
  exact ⟨rfl, rfl⟩

/-- Witness for C3 at a concrete input: a frame numbered `0` with one body
`b` holding a scalar `id`, a flat list `position` and a list-of-lists
`keypoint`, fed to both generic flatteners. -/
theorem flatten_json_copies_fields_witness :
    dget (PrepCap.capRecord
        [("frame_number", Value.num 0), ("b", Value.dict
          [("id", Value.num 7), ("position", Value.list [Value.num 1, Value.num 2]),
           ("keypoint", Value.list [Value.list [Value.num 5]])])] "b"
        [("id", Value.num 7), ("position", Value.list [Value.num 1, Value.num 2]),
         ("keypoint", Value.list [Value.list [Value.num 5]])]) "frame_number" =
      some (Value.num 0) ∧
    dget (PrepCap.capRecord
        [("frame_number", Value.num 0), ("b", Value.dict
          [("id", Value.num 7), ("position", Value.list [Value.num 1, Value.num 2]),
           ("keypoint", Value.list [Value.list [Value.num 5]])])] "b"
        [("id", Value.num 7), ("position", Value.list [Value.num 1, Value.num 2]),
         ("keypoint", Value.list [Value.list [Value.num 5]])]) "id" =
      some (Value.num 7) ∧
    dget (PrepCap.capRecord
        [("frame_number", Value.num 0), ("b", Value.dict
          [("id", Value.num 7), ("position", Value.list [Value.num 1, Value.num 2]),
           ("keypoint", Value.list [Value.list [Value.num 5]])])] "b"
        [("id", Value.num 7), ("position", Value.list [Value.num 1, Value.num 2]),
         ("keypoint", Value.list [Value.list [Value.num 5]])]) "position_0" =
      some (Value.num 1) ∧
    dget (PrepCap.capRecord
        [("frame_number", Value.num 0), ("b", Value.dict
          [("id", Value.num 7), ("position", Value.list [Value.num 1, Value.num 2]),
           ("keypoint", Value.list [Value.list [Value.num 5]])])] "b"
        [("id", Value.num 7), ("position", Value.list [Value.num 1, Value.num 2]),
         ("keypoint", Value.list [Value.list [Value.num 5]])]) "keypoint_0_0" =
      some (Value.num 5) ∧
    dget (PrepSnake.snakeRecord "0" 1 "b"
        [("id", Value.num 7), ("position", Value.list [Value.num 1, Value.num 2]),
         ("keypoint", Value.list [Value.list [Value.num 5]])]) "frame_number" =
      some (Value.str "0") ∧
    dget (PrepSnake.snakeRecord "0" 1 "b"
        [("id", Value.num 7), ("position", Value.list [Value.num 1, Value.num 2]),
         ("keypoint", Value.list [Value.list [Value.num 5]])])
        "body_tracking_error" = some (Value.num 0) ∧
    dget (PrepSnake.snakeRecord "0" 1 "b"
        [("id", Value.num 7), ("position", Value.list [Value.num 1, Value.num 2]),
         ("keypoint", Value.list [Value.list [Value.num 5]])]) "position_0" =
      some (Value.num 1) := by
  have hfieldhyp : ((expandEntries
      [("id", Value.num 7), ("position", Value.list [Value.num 1, Value.num 2]),
       ("keypoint", Value.list [Value.list [Value.num 5]])]).map Prod.fst).Nodup ∧
      "frame_number" ∉ (expandEntries
        [("id", Value.num 7), ("position", Value.list [Value.num 1, Value.num 2]),
         ("keypoint", Value.list [Value.list [Value.num 5]])]).map Prod.fst ∧
      "inner_key" ∉ (expandEntries
        [("id", Value.num 7), ("position", Value.list [Value.num 1, Value.num 2]),
         ("keypoint", Value.list [Value.list [Value.num 5]])]).map Prod.fst ∧
      "body_tracking_error" ∉ (expandEntries
        [("id", Value.num 7), ("position", Value.list [Value.num 1, Value.num 2]),
         ("keypoint", Value.list [Value.list [Value.num 5]])]).map Prod.fst := by
    refine ⟨?_, ?_, ?_, ?_⟩ <;> decide
  have happ := flatten_json_copies_fields
    [[("frame_number", Value.num 0), ("b", Value.dict
      [("id", Value.num 7), ("position", Value.list [Value.num 1, Value.num 2]),
       ("keypoint", Value.list [Value.list [Value.num 5]])])]]
    [("0", [("b", Value.dict
      [("id", Value.num 7), ("position", Value.list [Value.num 1, Value.num 2]),
       ("keypoint", Value.list [Value.list [Value.num 5]])])])]
    (by
      intro frame hf item hi fields hfield
      rw [List.mem_singleton] at hf
      subst hf
      rcases List.mem_cons.mp hi with hitem | hitem
      · subst hitem
        cases hfield
      · rw [List.mem_singleton] at hitem
        subst hitem
        injection hfield with he
        subst he
        exact ⟨hfieldhyp.1, hfieldhyp.2.1, hfieldhyp.2.2.1⟩)
    (by
      intro fr hf item hi fields hfield
      rw [List.mem_singleton] at hf
      subst hf
      rw [List.mem_singleton] at hi
      subst hi
      injection hfield with he
      subst he
      exact hfieldhyp)
  have hcapPart := happ.2.2.1
    [("frame_number", Value.num 0), ("b", Value.dict
      [("id", Value.num 7), ("position", Value.list [Value.num 1, Value.num 2]),
       ("keypoint", Value.list [Value.list [Value.num 5]])])] (by simp)
    ("b", Value.dict
      [("id", Value.num 7), ("position", Value.list [Value.num 1, Value.num 2]),
       ("keypoint", Value.list [Value.list [Value.num 5]])]) (by simp)
    [("id", Value.num 7), ("position", Value.list [Value.num 1, Value.num 2]),
     ("keypoint", Value.list [Value.list [Value.num 5]])] rfl
  have hsnakePart := happ.2.2.2
    ("0", [("b", Value.dict
      [("id", Value.num 7), ("position", Value.list [Value.num 1, Value.num 2]),
       ("keypoint", Value.list [Value.list [Value.num 5]])])]) (by simp)
    ("b", Value.dict
      [("id", Value.num 7), ("position", Value.list [Value.num 1, Value.num 2]),
       ("keypoint", Value.list [Value.list [Value.num 5]])]) (by simp)
    [("id", Value.num 7), ("position", Value.list [Value.num 1, Value.num 2]),
     ("keypoint", Value.list [Value.list [Value.num 5]])] rfl
  exact ⟨hcapPart.2.1,
    hcapPart.2.2.2.1 ("id", Value.num 7) (by simp) rfl,
    hcapPart.2.2.2.2.1 ("position", Value.list [Value.num 1, Value.num 2])
      (by simp) [Value.num 1, Value.num 2] rfl rfl 0 (by decide),
    hcapPart.2.2.2.2.2 ("keypoint", Value.list [Value.list [Value.num 5]])
      (by simp) [Value.list [Value.num 5]] [Value.num 5] rfl rfl 0 0
      (by decide) rfl (by decide),
    hsnakePart.2.1,
    hsnakePart.2.2.2.1,
    hsnakePart.2.2.2.2.2.1 ("position", Value.list [Value.num 1, Value.num 2])
      (by simp) [Value.num 1, Value.num 2] rfl rfl 0 (by decide)⟩

/-- C8 counterexample: `extract_intervals_from_metadata` never reaches its
indexing loop.  With the even-length annotated seconds `[0, 1]` at rate `30`
the claim promises the union of the paired frame ranges, but the function's
first step calls the `seconds_to_frames` copy of its own module, which is a
SyntaxError and cannot produce a frames list, so no interval set is ever
returned. -/
theorem extract_intervals_from_metadata_never_runs :
    PrepSnake.extract_intervals_from_metadata
        [("seconds", Value.list [Value.num 0, Value.num 1])] 30 = none := by
  rfl

end ConfusionData
